import Mathlib

/-!
# Verification of the MachineMind Telegram bot command core

A shallow embedding of the command dispatch, authorization, input
normalization and webhook entry code of the `machinemind-telegram`
repository (`src/lib/commands.ts`, `src/lib/telegram.ts`,
`app/api/telegram/webhook/route.ts`), together with theorems settling the
specification claims about it.

Strings are modelled as Lean `String`/`List Char`; the JavaScript regular
expressions of the source are embedded as explicit backtracking matchers
that follow the regex literals construct by construct (lazy and greedy
quantifiers, optional groups, case-insensitive literals, left-to-right
scan of `String.prototype.match`).  JavaScript numbers produced by
`Number(...)` are modelled by `JsNum` (NaN, signed infinity, or an exact
rational).  Asynchronous side effects (chat messages, adapter calls,
network fetches) are modelled as explicit traces of `Effect`/`FetchCall`
values, and a thrown JavaScript exception is modelled as an `Option
String` carrying the error message.
-/

namespace MachineMind

/-! ## ASCII character classes used by the source's regex literals -/

/-- `a`–`z`. -/
def isAsciiLower (c : Char) : Bool := decide (97 ≤ c.toNat ∧ c.toNat ≤ 122)

/-- `A`–`Z`. -/
def isAsciiUpper (c : Char) : Bool := decide (65 ≤ c.toNat ∧ c.toNat ≤ 90)

/-- `0`–`9`. -/
def isAsciiDigit (c : Char) : Bool := decide (48 ≤ c.toNat ∧ c.toNat ≤ 57)

/-- The class `[a-z0-9]` under the `i` flag (equivalently `[A-Za-z0-9]`). -/
def isAsciiAlnum (c : Char) : Bool := isAsciiLower c || isAsciiUpper c || isAsciiDigit c

/-- The class `[a-z0-9-]` under the `i` flag. -/
def isAlnumHyphen (c : Char) : Bool := isAsciiAlnum c || c == '-'

/-- JavaScript `\s` restricted to the ASCII whitespace characters plus
NBSP and the BOM; Telegram command text only meets the ASCII ones. -/
def isJsSpace (c : Char) : Bool :=
  c == ' ' || c == '\t' || c == '\n' || c == '\r' ||
    decide (c.toNat = 11) || decide (c.toNat = 12) ||
    decide (c.toNat = 0xa0) || decide (c.toNat = 0xfeff)

/-- Case-insensitive match of one pattern character `p` (always written in
lowercase or as a symbol in the source regexes) against an input
character `c`, as under the regex `i` flag on ASCII: equal, or `c` is the
uppercase ASCII counterpart of `p`. -/
def ciEq (p c : Char) : Bool :=
  p == c || (isAsciiUpper c && decide (c.toNat + 32 = p.toNat))

/-! ## A small backtracking engine for the two regexes of
`extractProjectName` -/

/-- Consume the literal pattern `ps` (case-insensitively) from the front
of `l`, returning the remainder; `none` when the literal does not match.
Models a sequence of literal regex characters. -/
def dropLitCI : List Char → List Char → Option (List Char)
  | [], l => some l
  | _ :: _, [] => none
  | p :: ps, c :: cs => if ciEq p c then dropLitCI ps cs else none

/-- `true` when the literal pattern `ps` matches (case-insensitively) a
front segment of `l`. -/
def hasLitCI (ps l : List Char) : Bool := (dropLitCI ps l).isSome

/-- First success of `f` over a list, in order: models the order in which
a backtracking regex engine tries alternatives. -/
def firstSome {α β : Type} (f : α → Option β) : List α → Option β
  | [] => none
  | a :: as =>
    match f a with
    | some b => some b
    | none => firstSome f as

/-- All ways to split `l` into a nonempty front run of characters
satisfying `p` and the remainder, shortest run first.  These are exactly
the iteration choices of a regex `+` quantifier over the class `p`; in
this (lazy, shortest-first) order they are the choices of `+?`. -/
def classRuns (p : Char → Bool) : List Char → List (List Char × List Char)
  | [] => []
  | c :: cs =>
    if p c then
      ([c], cs) :: (classRuns p cs).map (fun tr => (c :: tr.1, tr.2))
    else []

/-- Remainders after consuming `'-'` followed by at least `m` characters
of class `p`: the ways the group `(?:-p{m,})` can consume from `l`.  The
`any` consumers below make the order of the list immaterial. -/
def dashRunRests (p : Char → Bool) (m : Nat) : List Char → List (List Char)
  | '-' :: rest =>
    ((classRuns p rest).filter (fun tr => decide (m ≤ tr.1.length))).map
      (fun tr => tr.2)
  | _ => []

/-- The choices of `https?`'s optional `s` after the literal `http` has
been consumed: greedy, so the variant consuming `s` is tried first. -/
def sOptions : List Char → List (List Char)
  | [] => [[]]
  | c :: rest => if ciEq 's' c then [rest, c :: rest] else [c :: rest]

/-- The part of the Vercel regex after the capture group:
`(?:-[a-z0-9]{8,})?(?:-[a-z0-9-]+)?\.vercel\.app` (flag `i`).  Each
optional group either consumes one of its possible runs or is skipped. -/
def vercelTail (l : List Char) : Bool :=
  (dashRunRests isAsciiAlnum 8 l ++ [l]).any fun l2 =>
    (dashRunRests isAlnumHyphen 1 l2 ++ [l2]).any fun l3 =>
      hasLitCI ".vercel.app".data l3

/-- Try the whole Vercel regex
`/https?:\/\/([a-z0-9-]+?)(?:-[a-z0-9]{8,})?(?:-[a-z0-9-]+)?\.vercel\.app/i`
at the start of `l`, returning the text of capture group 1.  The lazy
`+?` of the capture group is the shortest-first order of `classRuns`. -/
def matchVercelAt (l : List Char) : Option (List Char) :=
  match dropLitCI "http".data l with
  | none => none
  | some l1 =>
    firstSome
      (fun l2 =>
        match dropLitCI "://".data l2 with
        | none => none
        | some l3 =>
          firstSome
            (fun tr => if vercelTail tr.2 then some tr.1 else none)
            (classRuns isAlnumHyphen l3))
      (sOptions l1)

/-- Left-to-right scan of `input.match(vercelRegex)`: the regex is tried
at every start position, leftmost first. -/
def vercelSearch : List Char → Option (List Char)
  | [] => none
  | c :: cs =>
    match matchVercelAt (c :: cs) with
    | some g => some g
    | none => vercelSearch cs

/-- The class `[^/]` of the GitHub regex. -/
def isOwnerChar (c : Char) : Bool := !(c == '/')

/-- The class `[^/\s]` of the GitHub regex. -/
def isRepoChar (c : Char) : Bool := !(c == '/') && !(isJsSpace c)

/-- Try the GitHub regex `/https?:\/\/github\.com\/[^/]+\/([^/\s]+)/i` at
the start of `l`, returning capture group 1.  `[^/]+` is greedy and must
be followed by the literal `/`; since the class excludes `/`, only the
maximal run can be followed by it, and the final greedy capture (at the
end of the regex) is the maximal `[^/\s]` run. -/
def matchGithubAt (l : List Char) : Option (List Char) :=
  match dropLitCI "http".data l with
  | none => none
  | some l1 =>
    firstSome
      (fun l2 =>
        match dropLitCI "://github.com/".data l2 with
        | none => none
        | some l3 =>
          let owner := l3.takeWhile isOwnerChar
          if owner.isEmpty then none
          else
            match l3.drop owner.length with
            | c2 :: rest2 =>
              if c2 = '/' then
                let cap := rest2.takeWhile isRepoChar
                if cap.isEmpty then none else some cap
              else none
            | [] => none)
      (sOptions l1)

/-- Left-to-right scan of `input.match(githubRegex)`. -/
def githubSearch : List Char → Option (List Char)
  | [] => none
  | c :: cs =>
    match matchGithubAt (c :: cs) with
    | some g => some g
    | none => githubSearch cs

/-- `repo.replace(/\.git$/, "")`: strip one case-sensitive `.git` suffix. -/
def stripDotGit (l : List Char) : List Char :=
  if l.drop (l.length - 4) = ['.', 'g', 'i', 't'] then l.take (l.length - 4)
  else l

/-- `extractProjectName` of `src/lib/commands.ts`: extract a project name
from a Vercel URL, else a repo name from a GitHub URL (with `.git`
stripped), else return the input unchanged. -/
def extractProjectName (input : String) : String :=
  match vercelSearch input.data with
  | some g => String.mk g
  | none =>
    match githubSearch input.data with
    | some cap => String.mk (stripDotGit cap)
    | none => input

/-- `cleanArgs`: normalize every argument through `extractProjectName`. -/
def cleanArgs (args : List String) : List String :=
  args.map extractProjectName

/-! ## Input validators (`SAFE_PROJECT_NAME`, `SAFE_COMPONENT_NAME`,
`SAFE_BUSINESS_NAME`) -/

/-- `SAFE_PROJECT_NAME = /^[a-z0-9][a-z0-9-]{0,99}$/i`: one alphanumeric,
then up to 99 alphanumerics or hyphens; the `i` flag makes both classes
accept uppercase ASCII letters as well. -/
def validateProjectName (name : String) : Bool :=
  match name.data with
  | [] => false
  | c :: cs => isAsciiAlnum c && decide (cs.length ≤ 99) && cs.all isAlnumHyphen

/-- `SAFE_COMPONENT_NAME = /^[A-Z][A-Za-z0-9]{0,49}$/` (no `i` flag). -/
def validateComponentName (name : String) : Bool :=
  match name.data with
  | [] => false
  | c :: cs => isAsciiUpper c && decide (cs.length ≤ 49) && cs.all isAsciiAlnum

/-- The character class of `SAFE_BUSINESS_NAME`:
`[A-Za-z0-9 '"áéíóúñÁÉÍÓÚÑüÜ,.\-]`. -/
def isBusinessChar (c : Char) : Bool :=
  isAsciiAlnum c || c == ' ' || c == '\'' || c == '"' ||
    c == 'á' || c == 'é' || c == 'í' || c == 'ó' || c == 'ú' || c == 'ñ' ||
    c == 'Á' || c == 'É' || c == 'Í' || c == 'Ó' || c == 'Ú' || c == 'Ñ' ||
    c == 'ü' || c == 'Ü' || c == ',' || c == '.' || c == '-'

/-- `SAFE_BUSINESS_NAME = /^[A-Za-z0-9 '"áéíóúñÁÉÍÓÚÑüÜ,.\-]{1,100}$/`. -/
def validateBusinessName (name : String) : Bool :=
  decide (1 ≤ name.data.length) && decide (name.data.length ≤ 100) &&
    name.data.all isBusinessChar

/-! ## JavaScript numbers: `Number(...)` and truthiness

`jsNumber` models the ECMAScript string-to-number conversion used in
`AUTHORIZED_TELEGRAM_IDS?.split(",").map(Number)`: whitespace trimming,
the empty string converting to `0`, decimal literals with optional sign,
fraction and exponent, the `Infinity` forms, and unsigned hex / octal /
binary literals.  Values are exact rationals: double-precision rounding
and overflow to infinity are outside the model (Telegram caller ids are
small integers, which doubles represent exactly). -/

/-- An exact rational JS number value, kept as an unreduced fraction with
positive denominator (every constructor below builds a power of ten).
Value equality is by cross-multiplication (`jsSameValueZero`), never by
structure. -/
structure JsRat where
  num : Int
  den : Nat
deriving DecidableEq

inductive JsNum where
  | nan : JsNum
  | inf : Bool → JsNum
  | num : JsRat → JsNum
deriving DecidableEq

/-- Value of a list of decimal digits. -/
def digitsVal (l : List Char) : Nat :=
  l.foldl (fun a c => a * 10 + (c.toNat - 48)) 0

/-- Hex digit value. -/
def hexVal (c : Char) : Option Nat :=
  if isAsciiDigit c then some (c.toNat - 48)
  else if decide (97 ≤ c.toNat ∧ c.toNat ≤ 102) then some (c.toNat - 87)
  else if decide (65 ≤ c.toNat ∧ c.toNat ≤ 70) then some (c.toNat - 55)
  else none

/-- Octal digit value. -/
def octVal (c : Char) : Option Nat :=
  if isAsciiDigit c && decide (c.toNat ≤ 55) then some (c.toNat - 48) else none

/-- Binary digit value. -/
def binVal (c : Char) : Option Nat :=
  if c == '0' then some 0 else if c == '1' then some 1 else none

/-- Value of a nonempty digit string in the given base, `none` on any
non-digit. -/
def radixDigits (base : Nat) (dv : Char → Option Nat) (l : List Char) : Option Nat :=
  match l with
  | [] => none
  | _ =>
    l.foldl
      (fun acc c =>
        match acc, dv c with
        | some a, some d => some (a * base + d)
        | _, _ => none)
      (some 0)

/-- The `0x` / `0o` / `0b` numeric literal forms (no sign allowed). -/
def radixParse (l : List Char) : Option JsRat :=
  match l with
  | '0' :: c :: rest =>
    if c == 'x' || c == 'X' then (radixDigits 16 hexVal rest).map (fun n => ⟨n, 1⟩)
    else if c == 'o' || c == 'O' then (radixDigits 8 octVal rest).map (fun n => ⟨n, 1⟩)
    else if c == 'b' || c == 'B' then (radixDigits 2 binVal rest).map (fun n => ⟨n, 1⟩)
    else none
  | _ => none

/-- An optional exponent part `e`/`E` with optional sign; `some 0` when
absent, `none` when malformed. -/
def parseExpPart (l : List Char) : Option Int :=
  match l with
  | [] => some 0
  | e :: r =>
    if e == 'e' || e == 'E' then
      let sr : Bool × List Char :=
        match r with
        | '-' :: r2 => (true, r2)
        | '+' :: r2 => (false, r2)
        | r2 => (false, r2)
      if sr.2.isEmpty || !(sr.2.all isAsciiDigit) then none
      else some (if sr.1 then -(digitsVal sr.2 : Int) else (digitsVal sr.2 : Int))
    else none

/-- Scale a fraction by a power of ten. -/
def applyExp (q : JsRat) (e : Int) : JsRat :=
  if 0 ≤ e then ⟨q.num * (10 ^ e.toNat : Nat), q.den⟩
  else ⟨q.num, q.den * 10 ^ (-e).toNat⟩

/-- An unsigned decimal literal: `digits`, `digits.`, `digits.digits` or
`.digits`, followed by an optional exponent part.  The mantissa
`ip.fp` is the fraction `(ip * 10^|fp| + fp) / 10^|fp|`. -/
def parseDecimal (l : List Char) : Option JsRat :=
  let ip := l.takeWhile isAsciiDigit
  let rest := l.drop ip.length
  match rest with
  | '.' :: r2 =>
    let fp := r2.takeWhile isAsciiDigit
    let r3 := r2.drop fp.length
    if ip.isEmpty && fp.isEmpty then none
    else
      (parseExpPart r3).map
        (applyExp ⟨digitsVal ip * 10 ^ fp.length + digitsVal fp, 10 ^ fp.length⟩)
  | r2 =>
    if ip.isEmpty then none else (parseExpPart r2).map (applyExp ⟨digitsVal ip, 1⟩)

/-- Strip leading and trailing JS whitespace. -/
def trimJs (l : List Char) : List Char :=
  ((l.dropWhile isJsSpace).reverse.dropWhile isJsSpace).reverse

/-- The JS `Number(s)` conversion (see the section comment above). -/
def jsNumber (l : List Char) : JsNum :=
  let t := trimJs l
  if t.isEmpty then .num ⟨0, 1⟩
  else if t = "Infinity".data || t = "+Infinity".data then .inf false
  else if t = "-Infinity".data then .inf true
  else
    match radixParse t with
    | some q => .num q
    | none =>
      let su : Bool × List Char :=
        match t with
        | '-' :: r => (true, r)
        | '+' :: r => (false, r)
        | r => (false, r)
      match parseDecimal su.2 with
      | some q => .num (if su.1 then ⟨-q.num, q.den⟩ else q)
      | none => .nan

/-- JS truthiness of a number (`filter(Boolean)`): `NaN`, `0` and `-0`
are falsy, everything else truthy (the denominator is positive by
construction, so the value is zero exactly when the numerator is). -/
def jsTruthy : JsNum → Bool
  | .nan => false
  | .inf _ => true
  | .num q => !(q.num == 0)

/-- The SameValueZero comparison used by `Array.prototype.includes`:
`NaN` equals `NaN`, `+0` equals `-0`, and rational values compare by
cross-multiplication. -/
def jsSameValueZero : JsNum → JsNum → Bool
  | .nan, .nan => true
  | .inf b1, .inf b2 => b1 == b2
  | .num q1, .num q2 => q1.num * (q2.den : Int) == q2.num * (q1.den : Int)
  | _, _ => false

/-- `list.includes(x)` on JS numbers. -/
def jsIncludes (l : List JsNum) (x : JsNum) : Bool :=
  l.any (fun y => jsSameValueZero y x)

/-- The JS number of a Telegram integer id. -/
def jsOfInt (n : Int) : JsNum := .num ⟨n, 1⟩

/-- `String.prototype.split(",")`: split at every comma, keeping empty
pieces. -/
def splitOnComma : List Char → List (List Char)
  | [] => [[]]
  | c :: cs =>
    if c == ',' then [] :: splitOnComma cs
    else
      match splitOnComma cs with
      | t :: ts => (c :: t) :: ts
      | [] => [[c]]

/-- The allow-list computation of `handleCommand`:
`process.env.AUTHORIZED_TELEGRAM_IDS?.split(",").map(Number).filter(Boolean) || []`,
with the environment variable passed explicitly as `v`. -/
def parseAuthorizedIds (v : Option String) : List JsNum :=
  match v with
  | none => []
  | some s => ((splitOnComma s.data).map jsNumber).filter jsTruthy

/-! ## Tokenization of the command text -/

/-- Accumulating pass of `jsSplitWs`: `done` holds finished tokens in
reverse, `cur` the current token in reverse, `inSep` whether the previous
character was whitespace (so that a whitespace run splits only once). -/
def splitGo (done : List String) (cur : List Char) (inSep : Bool) :
    List Char → List String
  | [] => (String.mk cur.reverse :: done).reverse
  | c :: cs =>
    if isJsSpace c then
      if inSep then splitGo done cur true cs
      else splitGo (String.mk cur.reverse :: done) [] true cs
    else splitGo done (c :: cur) false cs

/-- `text.split(/\s+/)`: split on maximal whitespace runs; a leading or
trailing run yields an empty piece, and the empty string yields `[""]`,
as in JavaScript. -/
def jsSplitWs (l : List Char) : List String := splitGo [] [] false l

/-- ASCII lowering, the fragment of `toLowerCase` relevant to command
tokens. -/
def lowerAscii (c : Char) : Char :=
  if isAsciiUpper c then Char.ofNat (c.toNat + 32) else c

/-- `const command = parts[0].toLowerCase().split("@")[0]` where
`parts = text.slice(1).split(/\s+/)`. -/
def commandOf (text : String) : String :=
  let parts := jsSplitWs (text.data.drop 1)
  String.mk (((parts.headD "").data.map lowerAscii).takeWhile (fun c => !(c == '@')))

/-- `const args = cleanArgs(parts.slice(1))`. -/
def argsOf (text : String) : List String :=
  cleanArgs ((jsSplitWs (text.data.drop 1)).drop 1)

/-- `text.startsWith("/")`. -/
def startsWithSlash (text : String) : Bool :=
  match text.data with
  | '/' :: _ => true
  | _ => false

/-! ## Effects, handlers and the dispatcher `handleCommand` -/

/-- One observable side effect of a handler or of the dispatcher.
`sendMessageE` / `sendTypingE` are chat-transport calls; the remaining
constructors are adapter operations against the source-control or
deployment platform. -/
inductive Effect where
  | sendMessageE : Int → String → Effect
  | sendTypingE : Int → Effect
  | triggerWorkflowE : String → String → String → List (String × String) → Effect
  | triggerDeploymentE : String → Effect
deriving DecidableEq

/-- Whether an effect is a deployment-platform or source-control adapter
call (as opposed to a chat-transport call). -/
def isAdapterEffect : Effect → Bool
  | .sendMessageE _ _ => false
  | .sendTypingE _ => false
  | .triggerWorkflowE _ _ _ _ => true
  | .triggerDeploymentE _ => true

/-- The result of awaiting one handler: the effect trace it produced and,
when it threw, the JavaScript error message. -/
structure HandlerOutcome where
  effects : List Effect
  thrown : Option String

/-- The `commands` dispatch table: a map from command token to handler.
The table of the source is a module-level object literal; it is passed
as an explicit argument here. -/
def Registry : Type := String → Option (Int → List String → HandlerOutcome)

def notConfiguredMsg : String := "⛔ Bot not configured. Contact administrator."

def unauthorizedMsg : String := "⛔ Unauthorized. This bot is private."

def promptMsg : String := "Send a command like <code>/help</code> to get started."

def unknownCommandMsg (command : String) : String :=
  "❓ Unknown command: <code>/" ++ command ++
    "</code>\n\nUse <code>/help</code> for available commands."

def commandFailedMsg (m : String) : String := "❌ Command failed: " ++ m

/-- `handleCommand(chatId, userId, text)` of `src/lib/commands.ts`.  The
environment variable `AUTHORIZED_TELEGRAM_IDS` is the explicit argument
`authVar` and the module-level `commands` table the argument `commands`;
the returned list is the trace of awaited side effects, in order. -/
def handleCommand (commands : Registry) (authVar : Option String)
    (chatId userId : Int) (text : String) : List Effect :=
  let authorizedUsers := parseAuthorizedIds authVar
  if authorizedUsers.length = 0 then
    [.sendMessageE chatId notConfiguredMsg]
  else if !(jsIncludes authorizedUsers (jsOfInt userId)) then
    [.sendMessageE chatId unauthorizedMsg]
  else if !(startsWithSlash text) then
    [.sendMessageE chatId promptMsg]
  else
    let command := commandOf text
    match commands command with
    | none => [.sendMessageE chatId (unknownCommandMsg command)]
    | some handler =>
      let o := handler chatId (argsOf text)
      match o.thrown with
      | none => o.effects
      | some m => o.effects ++ [.sendMessageE chatId (commandFailedMsg m)]

/-! ## The `audit` handler (the mutating handler cited by the
validation-before-mutation claim) -/

def GITHUB_OWNER : String := "Showowt"

def BOT_REPO : String := "machinemind-telegram"

def auditUsageMsg : String :=
  "🔍 <b>Security Audit</b>\n\n" ++
    "Scans for vulnerabilities, secrets, and code quality.\n\n" ++
    "<b>Usage:</b> <code>/audit [project-name]</code>\n" ++
    "<b>Example:</b> <code>/audit simmer-down</code>"

def auditStartedMsg (projectName : String) : String :=
  "🔍 <b>Security Audit Started</b>\n\n" ++
    "📦 Project: <code>" ++ projectName ++ "</code>\n" ++
    "🔄 Status: Scanning...\n\n" ++
    "You'll receive the audit report when complete."

def auditFailedMsg : String :=
  "❌ Failed to trigger audit.\n\nMake sure GITHUB_TOKEN is configured."

/-- The `audit` command handler: usage message when no argument, else
`triggerWorkflow(GITHUB_OWNER, BOT_REPO, "audit.yml", {project, chat_id})`
followed by a started / failed message.  `wfSuccess` is the boolean the
`triggerWorkflow` adapter call resolved to.  The handler applies no
validator to `args[0]` before the mutating adapter call. -/
def audit (wfSuccess : Bool) (chatId : Int) (args : List String) : HandlerOutcome :=
  if args.length = 0 then ⟨[.sendMessageE chatId auditUsageMsg], none⟩
  else
    let projectName := args.headD ""
    ⟨[.sendTypingE chatId,
      .triggerWorkflowE GITHUB_OWNER BOT_REPO "audit.yml"
        [("project", projectName), ("chat_id", toString chatId)],
      .sendMessageE chatId (if wfSuccess then auditStartedMsg projectName else auditFailedMsg)],
      none⟩

/-- A registry exposing the `audit` handler under its token, agreeing
with the source's `commands` table at that token. -/
def auditRegistry (wfSuccess : Bool) : Registry :=
  fun command => if command = "audit" then some (audit wfSuccess) else none

/-! ## The chat-transport adapter (`src/lib/telegram.ts`) -/

/-- One outbound `fetch` against the Telegram API. -/
inductive FetchCall where
  | sendMessagePost : String → Int → String → String → FetchCall
  | chatActionPost : String → Int → String → FetchCall
deriving DecidableEq

def TELEGRAM_API : String := "https://api.telegram.org/bot"

/-- `sendMessage(chatId, text, options?)` of `src/lib/telegram.ts`: with
no token configured it throws `"TELEGRAM_BOT_TOKEN not set"` before any
network call; otherwise it posts to `/sendMessage` and returns
`response.ok` (the abstract network outcome `fetchOk`).  The result is
the trace of fetches plus either the thrown message or the returned
boolean. -/
def sendMessage (fetchOk : Bool) (token : Option String) (chatId : Int)
    (text : String) (parseMode : Option String) : List FetchCall × Except String Bool :=
  match token with
  | none => ([], .error "TELEGRAM_BOT_TOKEN not set")
  | some t =>
    ([.sendMessagePost (TELEGRAM_API ++ t ++ "/sendMessage") chatId text
        (parseMode.getD "HTML")],
      .ok fetchOk)

/-- `sendTyping(chatId)`: with no token configured it returns normally
without any network call; otherwise it posts a `typing` chat action. -/
def sendTyping (token : Option String) (chatId : Int) : List FetchCall × Except String Unit :=
  match token with
  | none => ([], .ok ())
  | some t =>
    ([.chatActionPost (TELEGRAM_API ++ t ++ "/sendChatAction") chatId "typing"], .ok ())

/-! ## The webhook entry point (`app/api/telegram/webhook/route.ts`) -/

structure TelegramUser where
  id : Int
  is_bot : Bool
  first_name : String
  username : Option String
deriving DecidableEq

structure TelegramChat where
  id : Int
  type : String
deriving DecidableEq

/-- `TelegramMessage` of `src/lib/telegram.ts`; the TS field `from` is
named `fromUser` because `from` is a Lean keyword. -/
structure TelegramMessage where
  message_id : Int
  fromUser : TelegramUser
  chat : TelegramChat
  date : Int
  text : Option String
deriving DecidableEq

structure TelegramUpdate where
  update_id : Int
  message : Option TelegramMessage
deriving DecidableEq

/-- An inbound webhook HTTP request: the value of a shared-secret header
if the sender supplied one, and the parsed JSON body (`none` models
`request.json()` throwing on an unparseable body). -/
structure WebhookRequest where
  secretHeader : Option String
  body : Option TelegramUpdate

/-- The `POST` handler of `app/api/telegram/webhook/route.ts`.  Returns
the `ok` field of the JSON response and the list of `handleCommand`
invocations `(chatId, userId, text)` dispatched (fire-and-forget) for the
request.  The handler reads only the body: the `secret` parameter (a
hypothetical configured shared secret) and `req.secretHeader` are
accepted so that claims about a secret check can be stated, but no code
in the route consults them — the source performs no such check.  The
message is processed only when `update.message?.text` is truthy (present
and nonempty) and `from` and `chat` are present; `from` and `chat` are
total fields here, matching their TS types. -/
def webhookPOST (_secret : Option String) (req : WebhookRequest) :
    Bool × List (Int × Int × String) :=
  match req.body with
  | none => (true, [])
  | some update =>
    match update.message with
    | none => (true, [])
    | some msg =>
      match msg.text with
      | none => (true, [])
      | some t =>
        if t = "" then (true, [])
        else (true, [(msg.chat.id, msg.fromUser.id, t)])

example : extractProjectName "https://simmer-down-ab12cd34-team.vercel.app" = "simmer" := by decide
example : extractProjectName "https://github.com/Owner/my-repo.git" = "my-repo" := by decide
example : extractProjectName "my-repo" = "my-repo" := by decide
example : extractProjectName "https://project-name.vercel.app" = "project" := by decide
example : validateProjectName "A" = true := by decide
example : validateProjectName "a_b" = false := by decide
example : validateProjectName "simmer-down" = true := by decide
example : jsTruthy (jsNumber "".data) = false := by decide
example : jsSameValueZero (jsNumber " 42 ".data) (jsOfInt 42) = true := by decide
example : jsTruthy (jsNumber "abc".data) = false := by decide
example : jsSameValueZero (jsNumber "-7".data) (jsOfInt (-7)) = true := by decide
example : jsIncludes (parseAuthorizedIds (some "12345")) (jsOfInt 12345) = true := by decide
example : (parseAuthorizedIds (some "abc,def")).length = 0 := by decide
example : jsIncludes (parseAuthorizedIds (some "0,5")) (jsOfInt 0) = false := by decide
example : commandOf "/Audit@MyBot x" = "audit" := by decide
example : argsOf "/audit My_Project" = ["My_Project"] := by decide
example :
    handleCommand (auditRegistry true) (some "12345") 1 12345 "/audit My_Project" =
      [.sendTypingE 1,
        .triggerWorkflowE GITHUB_OWNER BOT_REPO "audit.yml"
          [("project", "My_Project"), ("chat_id", "1")],
        .sendMessageE 1 (auditStartedMsg "My_Project")] := by decide
example : handleCommand (auditRegistry true) none 1 12345 "/audit x" =
    [.sendMessageE 1 notConfiguredMsg] := by decide
example : handleCommand (auditRegistry true) (some "5") 1 12345 "/audit x" =
    [.sendMessageE 1 unauthorizedMsg] := by decide

/-! ## Supporting lemmas -/

theorem mk_data (l : List Char) : (String.mk l).data = l := rfl

theorem firstSome_eq_some {α β : Type} (f : α → Option β) (l : List α) (b : β)
    (h : firstSome f l = some b) : ∃ a ∈ l, f a = some b := by
  induction l with
  | nil => simp [firstSome] at h
  | cons a as ih =>
    rw [firstSome] at h
    cases hfa : f a with
    | some b2 =>
      rw [hfa] at h
      exact ⟨a, List.mem_cons_self a as, hfa.trans h⟩
    | none =>
      rw [hfa] at h
      obtain ⟨a2, ha2, hfa2⟩ := ih h
      exact ⟨a2, List.mem_cons_of_mem a ha2, hfa2⟩

theorem dropLitCI_matched (ps : List Char) :
    ∀ (l r : List Char), dropLitCI ps l = some r →
      ∀ pc ∈ ps, ∃ c ∈ l, ciEq pc c = true := by
  induction ps with
  | nil => intro l r _ pc hpc; simp at hpc
  | cons p ps ih =>
    intro l r h pc hpc
    cases l with
    | nil => simp [dropLitCI] at h
    | cons c cs =>
      rw [dropLitCI] at h
      by_cases hci : ciEq p c = true
      · rw [if_pos hci] at h
        rcases List.mem_cons.mp hpc with hpc | hpc
        · exact ⟨c, List.mem_cons_self c cs, hpc ▸ hci⟩
        · obtain ⟨c2, hc2, hci2⟩ := ih cs r h pc hpc
          exact ⟨c2, List.mem_cons_of_mem c hc2, hci2⟩
      · rw [if_neg hci] at h; exact absurd h (by simp)

theorem dropLitCI_mem (ps : List Char) :
    ∀ (l r : List Char), dropLitCI ps l = some r → ∀ x ∈ r, x ∈ l := by
  induction ps with
  | nil =>
    intro l r h x hx
    rw [dropLitCI] at h
    cases h; exact hx
  | cons p ps ih =>
    intro l r h x hx
    cases l with
    | nil => simp [dropLitCI] at h
    | cons c cs =>
      rw [dropLitCI] at h
      by_cases hci : ciEq p c = true
      · rw [if_pos hci] at h
        exact List.mem_cons_of_mem c (ih cs r h x hx)
      · rw [if_neg hci] at h; exact absurd h (by simp)

theorem ciEq_slash (c : Char) (h : ciEq '/' c = true) : c = '/' := by
  simp only [ciEq, isAsciiUpper, Bool.or_eq_true, beq_iff_eq, Bool.and_eq_true,
    decide_eq_true_eq] at h
  rcases h with h | ⟨⟨h1, h2⟩, h3⟩
  · exact h.symm
  · exfalso
    have hv : Char.toNat '/' = 47 := by decide
    rw [hv] at h3
    omega

theorem sOptions_mem (l1 l2 : List Char) (h : l2 ∈ sOptions l1) :
    ∀ x ∈ l2, x ∈ l1 := by
  intro x hx
  cases l1 with
  | nil => simp [sOptions] at h; subst h; exact hx
  | cons c rest =>
    rw [sOptions] at h
    by_cases hci : ciEq 's' c = true
    · rw [if_pos hci] at h
      rcases List.mem_cons.mp h with h | h
      · exact List.mem_cons_of_mem c (h ▸ hx)
      · simp at h; exact h ▸ hx
    · rw [if_neg hci] at h
      simp at h; exact h ▸ hx

theorem classRuns_spec (p : Char → Bool) :
    ∀ (l : List Char) (t r : List Char), (t, r) ∈ classRuns p l →
      ∀ c ∈ t, p c = true := by
  intro l
  induction l with
  | nil => intro t r h; simp [classRuns] at h
  | cons c cs ih =>
    intro t r h d hd
    rw [classRuns] at h
    by_cases hp : p c = true
    · rw [if_pos hp] at h
      rcases List.mem_cons.mp h with h | h
      · obtain ⟨ht, _⟩ := Prod.mk.injEq .. ▸ h
        cases h
        rcases List.mem_cons.mp hd with hd | hd
        · exact hd ▸ hp
        · simp at hd
      · obtain ⟨⟨t2, r2⟩, htr2, heq⟩ := List.mem_map.mp h
        cases heq
        rcases List.mem_cons.mp hd with hd | hd
        · exact hd ▸ hp
        · exact ih t2 r2 htr2 d hd
    · rw [if_neg hp] at h; simp at h

theorem matchVercelAt_slash (l g : List Char) (h : matchVercelAt l = some g) :
    '/' ∈ l := by
  rw [matchVercelAt] at h
  cases hh : dropLitCI "http".data l with
  | none => rw [hh] at h; exact absurd h (by simp)
  | some l1 =>
    rw [hh] at h
    obtain ⟨l2, hl2, h2⟩ := firstSome_eq_some _ _ _ h
    cases hd : dropLitCI "://".data l2 with
    | none => rw [hd] at h2; exact absurd h2 (by simp)
    | some l3 =>
      obtain ⟨c, hc, hci⟩ := dropLitCI_matched _ _ _ hd '/' (by decide)
      have : c = '/' := ciEq_slash c hci
      subst this
      exact dropLitCI_mem _ _ _ hh '/' (sOptions_mem l1 l2 hl2 '/' hc)

theorem matchGithubAt_slash (l g : List Char) (h : matchGithubAt l = some g) :
    '/' ∈ l := by
  rw [matchGithubAt] at h
  cases hh : dropLitCI "http".data l with
  | none => rw [hh] at h; exact absurd h (by simp)
  | some l1 =>
    rw [hh] at h
    obtain ⟨l2, hl2, h2⟩ := firstSome_eq_some _ _ _ h
    cases hd : dropLitCI "://github.com/".data l2 with
    | none => rw [hd] at h2; exact absurd h2 (by simp)
    | some l3 =>
      obtain ⟨c, hc, hci⟩ := dropLitCI_matched _ _ _ hd '/' (by decide)
      have : c = '/' := ciEq_slash c hci
      subst this
      exact dropLitCI_mem _ _ _ hh '/' (sOptions_mem l1 l2 hl2 '/' hc)

theorem vercelSearch_slash (l g : List Char) (h : vercelSearch l = some g) :
    '/' ∈ l := by
  induction l with
  | nil => simp [vercelSearch] at h
  | cons c cs ih =>
    rw [vercelSearch] at h
    cases hm : matchVercelAt (c :: cs) with
    | some g2 => exact matchVercelAt_slash _ _ hm
    | none => rw [hm] at h; exact List.mem_cons_of_mem c (ih h)

theorem githubSearch_slash (l g : List Char) (h : githubSearch l = some g) :
    '/' ∈ l := by
  induction l with
  | nil => simp [githubSearch] at h
  | cons c cs ih =>
    rw [githubSearch] at h
    cases hm : matchGithubAt (c :: cs) with
    | some g2 => exact matchGithubAt_slash _ _ hm
    | none => rw [hm] at h; exact List.mem_cons_of_mem c (ih h)

theorem vercelSearch_none (l : List Char) (h : '/' ∉ l) : vercelSearch l = none := by
  cases hv : vercelSearch l with
  | none => rfl
  | some g => exact absurd (vercelSearch_slash l g hv) h

theorem githubSearch_none (l : List Char) (h : '/' ∉ l) : githubSearch l = none := by
  cases hv : githubSearch l with
  | none => rfl
  | some g => exact absurd (githubSearch_slash l g hv) h

theorem matchVercelAt_chars (l g : List Char) (h : matchVercelAt l = some g) :
    ∀ c ∈ g, isAlnumHyphen c = true := by
  rw [matchVercelAt] at h
  cases hh : dropLitCI "http".data l with
  | none => rw [hh] at h; exact absurd h (by simp)
  | some l1 =>
    rw [hh] at h
    obtain ⟨l2, _, h2⟩ := firstSome_eq_some _ _ _ h
    cases hd : dropLitCI "://".data l2 with
    | none => rw [hd] at h2; exact absurd h2 (by simp)
    | some l3 =>
      rw [hd] at h2
      obtain ⟨⟨t, r⟩, htr, ht⟩ := firstSome_eq_some _ _ _ h2
      by_cases hv : vercelTail r = true
      · rw [if_pos hv] at ht
        cases ht
        exact classRuns_spec isAlnumHyphen l3 t r htr
      · rw [if_neg hv] at ht; exact absurd ht (by simp)

theorem vercelSearch_chars (l g : List Char) (h : vercelSearch l = some g) :
    ∀ c ∈ g, isAlnumHyphen c = true := by
  induction l with
  | nil => simp [vercelSearch] at h
  | cons c cs ih =>
    rw [vercelSearch] at h
    cases hm : matchVercelAt (c :: cs) with
    | some g2 =>
      rw [hm] at h
      cases h
      exact matchVercelAt_chars _ _ hm
    | none => rw [hm] at h; exact ih h

theorem mem_takeWhile_pred (p : Char → Bool) :
    ∀ (l : List Char) (a : Char), a ∈ l.takeWhile p → p a = true := by
  intro l
  induction l with
  | nil => intro a ha; simp [List.takeWhile] at ha
  | cons c cs ih =>
    intro a ha
    rw [List.takeWhile] at ha
    by_cases hp : p c = true
    · rw [hp] at ha
      rcases List.mem_cons.mp ha with ha | ha
      · exact ha ▸ hp
      · exact ih a ha
    · rw [Bool.eq_false_iff.mpr hp] at ha; simp at ha

theorem matchGithubAt_chars (l g : List Char) (h : matchGithubAt l = some g) :
    ∀ c ∈ g, isRepoChar c = true := by
  rw [matchGithubAt] at h
  cases hh : dropLitCI "http".data l with
  | none => rw [hh] at h; exact absurd h (by simp)
  | some l1 =>
    rw [hh] at h
    obtain ⟨l2, _, h2⟩ := firstSome_eq_some _ _ _ h
    cases hd : dropLitCI "://github.com/".data l2 with
    | none => rw [hd] at h2; exact absurd h2 (by simp)
    | some l3 =>
      rw [hd] at h2
      simp only at h2
      by_cases ho : (l3.takeWhile isOwnerChar).isEmpty = true
      · rw [if_pos ho] at h2; exact absurd h2 (by simp)
      · rw [if_neg ho] at h2
        cases hrest : l3.drop (l3.takeWhile isOwnerChar).length with
        | nil => rw [hrest] at h2; exact absurd h2 (by simp)
        | cons c2 rest2 =>
          rw [hrest] at h2
          simp only at h2
          by_cases hc2 : c2 = '/'
          · rw [if_pos hc2] at h2
            by_cases hcap : (rest2.takeWhile isRepoChar).isEmpty = true
            · rw [if_pos hcap] at h2; exact absurd h2 (by simp)
            · rw [if_neg hcap] at h2
              cases h2
              exact mem_takeWhile_pred isRepoChar rest2
          · rw [if_neg hc2] at h2
            exact absurd h2 (by simp)

theorem githubSearch_chars (l g : List Char) (h : githubSearch l = some g) :
    ∀ c ∈ g, isRepoChar c = true := by
  induction l with
  | nil => simp [githubSearch] at h
  | cons c cs ih =>
    rw [githubSearch] at h
    cases hm : matchGithubAt (c :: cs) with
    | some g2 =>
      rw [hm] at h
      cases h
      exact matchGithubAt_chars _ _ hm
    | none => rw [hm] at h; exact ih h

theorem stripDotGit_mem (l : List Char) : ∀ x ∈ stripDotGit l, x ∈ l := by
  intro x hx
  rw [stripDotGit] at hx
  by_cases hc : l.drop (l.length - 4) = ['.', 'g', 'i', 't']
  · rw [if_pos hc] at hx
    exact (List.take_sublist _ l).mem hx
  · rw [if_neg hc] at hx; exact hx

theorem isAlnumHyphen_no_slash (c : Char) (h : isAlnumHyphen c = true) : c ≠ '/' := by
  intro hc
  subst hc
  exact absurd h (by decide)

theorem isRepoChar_no_slash (c : Char) (h : isRepoChar c = true) : c ≠ '/' := by
  intro hc
  subst hc
  exact absurd h (by decide)

theorem handleCommand_denied_empty (commands : Registry) (authVar : Option String)
    (chatId userId : Int) (text : String) (h : parseAuthorizedIds authVar = []) :
    handleCommand commands authVar chatId userId text =
      [Effect.sendMessageE chatId notConfiguredMsg] := by
  simp [handleCommand, h]

theorem handleCommand_denied_absent (commands : Registry) (authVar : Option String)
    (chatId userId : Int) (text : String)
    (hne : parseAuthorizedIds authVar ≠ [])
    (hmem : jsIncludes (parseAuthorizedIds authVar) (jsOfInt userId) = false) :
    handleCommand commands authVar chatId userId text =
      [Effect.sendMessageE chatId unauthorizedMsg] := by
  have h1 : ¬ ((parseAuthorizedIds authVar).length = 0) :=
    fun hl => hne (List.length_eq_zero.mp hl)
  simp [handleCommand, h1, hmem]

theorem jsIncludes_filter_truthy_zero (l : List JsNum) :
    jsIncludes (l.filter jsTruthy) (jsOfInt 0) = false := by
  cases h : jsIncludes (l.filter jsTruthy) (jsOfInt 0) with
  | false => rfl
  | true =>
    exfalso
    obtain ⟨y, hy, hsvz⟩ := List.any_eq_true.mp h
    obtain ⟨_, hty⟩ := List.mem_filter.mp hy
    cases y with
    | nan => simp [jsSameValueZero, jsOfInt] at hsvz
    | inf b => simp [jsSameValueZero, jsOfInt] at hsvz
    | num q =>
      simp only [jsSameValueZero, jsOfInt, beq_iff_eq] at hsvz
      have hq : q.num = 0 := by
        have : q.num * ((1 : Nat) : Int) = 0 * (q.den : Int) := hsvz
        simpa using this
      simp [jsTruthy, hq] at hty

theorem parseAuthorizedIds_never_zero (v : Option String) :
    jsIncludes (parseAuthorizedIds v) (jsOfInt 0) = false := by
  cases v with
  | none => rfl
  | some s => exact jsIncludes_filter_truthy_zero _

theorem parseAuthorizedIds_all_nan (s : String)
    (hnan : ∀ e ∈ splitOnComma s.data, jsNumber e = JsNum.nan) :
    parseAuthorizedIds (some s) = [] := by
  unfold parseAuthorizedIds
  rw [List.filter_eq_nil_iff]
  intro y hy
  obtain ⟨e, he, hye⟩ := List.mem_map.mp hy
  rw [← hye, hnan e he]
  simp [jsTruthy]

theorem validateProjectName_bad_char (s : String) (c : Char) (hc : c ∈ s.data)
    (hbad : isAlnumHyphen c = false) : validateProjectName s = false := by
  unfold validateProjectName
  cases hs : s.data with
  | nil => rfl
  | cons d ds =>
    rw [hs] at hc
    simp only []
    have hna : isAsciiAlnum c = false := by
      have h2 : isAsciiAlnum c = false ∧ ¬ c = '-' := by simpa [isAlnumHyphen] using hbad
      exact h2.1
    rcases List.mem_cons.mp hc with h | h
    · rw [← h]; simp [hna]
    · have hall : ds.all isAlnumHyphen = false := by
        cases hall : ds.all isAlnumHyphen with
        | false => rfl
        | true => exact absurd (List.all_eq_true.mp hall c h) (by simp [hbad])
      simp [hall]

theorem validateProjectName_too_long (s : String) (h : 100 < s.length) :
    validateProjectName s = false := by
  unfold validateProjectName
  cases hs : s.data with
  | nil => rfl
  | cons d ds =>
    simp only []
    have hd : s.length = (d :: ds).length := by
      show s.data.length = _
      rw [hs]
    rw [hd, List.length_cons] at h
    have hlen : ¬ (ds.length ≤ 99) := by omega
    simp [hlen]

/-! ## Claim theorems -/

/-- C6: `extractProjectName` is idempotent: a Vercel capture consists of
`[a-z0-9-]` characters (no `/`), a GitHub capture of non-`/` characters,
and any string without `/` cannot match either URL regex (both demand the
literal `://`), so a second application changes nothing; inputs matching
neither regex are returned unchanged and are fixed points outright. -/
theorem extractProjectName_idempotent (x : String) :
    extractProjectName (extractProjectName x) = extractProjectName x := by
  cases hv : vercelSearch x.data with
  | some g =>
    have hfx : extractProjectName x = String.mk g := by
      unfold extractProjectName
      rw [hv]
    rw [hfx]
    have hns : '/' ∉ g := fun hm =>
      isAlnumHyphen_no_slash '/' (vercelSearch_chars x.data g hv '/' hm) rfl
    have h1 : vercelSearch (String.mk g).data = none := by
      rw [mk_data]; exact vercelSearch_none g hns
    have h2 : githubSearch (String.mk g).data = none := by
      rw [mk_data]; exact githubSearch_none g hns
    unfold extractProjectName
    rw [h1, h2]
  | none =>
    cases hg : githubSearch x.data with
    | some cap =>
      have hfx : extractProjectName x = String.mk (stripDotGit cap) := by
        unfold extractProjectName
        rw [hv, hg]
      rw [hfx]
      have hns : '/' ∉ stripDotGit cap := fun hm =>
        isRepoChar_no_slash '/'
          (githubSearch_chars x.data cap hg '/' (stripDotGit_mem cap '/' hm)) rfl
      have h1 : vercelSearch (String.mk (stripDotGit cap)).data = none := by
        rw [mk_data]; exact vercelSearch_none _ hns
      have h2 : githubSearch (String.mk (stripDotGit cap)).data = none := by
        rw [mk_data]; exact githubSearch_none _ hns
      unfold extractProjectName
      rw [h1, h2]
    | none =>
      have hfx : extractProjectName x = x := by
        unfold extractProjectName
        rw [hv, hg]
      rw [hfx, hfx]

/-- C1: whenever the parsed allow-list is empty, or nonempty but without
the caller, `handleCommand` sends exactly one denial message (one of the
two fixed denial texts) and the trace contains no deployment-platform or
source-control adapter call, for every registry and every text. -/
theorem handleCommand_denies_without_authorization (commands : Registry)
    (authVar : Option String) (chatId userId : Int) (text : String)
    (h : parseAuthorizedIds authVar = [] ∨
      (parseAuthorizedIds authVar ≠ [] ∧
        jsIncludes (parseAuthorizedIds authVar) (jsOfInt userId) = false)) :
    (∃ m, (m = notConfiguredMsg ∨ m = unauthorizedMsg) ∧
        handleCommand commands authVar chatId userId text =
          [Effect.sendMessageE chatId m]) ∧
      (handleCommand commands authVar chatId userId text).filter isAdapterEffect = [] := by
  rcases h with h | ⟨hne, hmem⟩
  · rw [handleCommand_denied_empty commands authVar chatId userId text h]
    exact ⟨⟨notConfiguredMsg, Or.inl rfl, rfl⟩, by simp [isAdapterEffect]⟩
  · rw [handleCommand_denied_absent commands authVar chatId userId text hne hmem]
    exact ⟨⟨unauthorizedMsg, Or.inr rfl, rfl⟩, by simp [isAdapterEffect]⟩

/-- Witness for C1 at the concrete input: empty registry, unset
allow-list variable, caller 2. -/
theorem handleCommand_denies_without_authorization_witness :
    (∃ m, (m = notConfiguredMsg ∨ m = unauthorizedMsg) ∧
        handleCommand (fun _ => none) none 1 2 "/help" = [Effect.sendMessageE 1 m]) ∧
      (handleCommand (fun _ => none) none 1 2 "/help").filter isAdapterEffect = [] :=
  handleCommand_denies_without_authorization (fun _ => none) none 1 2 "/help" (Or.inl rfl)

/-- C2 (evidence of the code bug): the `audit` handler passes the
user-derived project name to the mutating `triggerWorkflow` adapter call
even when it fails `validateProjectName` — for the authorized caller
12345 and text `/audit My_Project`, the trace contains the workflow
trigger with the invalid name `My_Project` (underscore and uppercase),
which `validateProjectName` rejects. -/
theorem audit_mutating_call_unvalidated :
    validateProjectName "My_Project" = false ∧
    handleCommand (auditRegistry true) (some "12345") 1 12345 "/audit My_Project" =
      [Effect.sendTypingE 1,
        Effect.triggerWorkflowE GITHUB_OWNER BOT_REPO "audit.yml"
          [("project", "My_Project"), ("chat_id", "1")],
        Effect.sendMessageE 1 (auditStartedMsg "My_Project")] ∧
    (handleCommand (auditRegistry true) (some "12345") 1 12345 "/audit My_Project").any
      isAdapterEffect = true :=
  ⟨by decide, by decide, by decide⟩

/-- C3: when the resolved handler throws with message `m`, the dispatcher
catches it and the trace is the handler's own effects followed by exactly
one appended `Command failed: m` message; `handleCommand` returns a
normal trace, so the exception does not propagate. -/
theorem dispatcher_catches_handler_throw (commands : Registry)
    (authVar : Option String) (chatId userId : Int) (text : String)
    (handler : Int → List String → HandlerOutcome) (m : String)
    (hne : parseAuthorizedIds authVar ≠ [])
    (hmem : jsIncludes (parseAuthorizedIds authVar) (jsOfInt userId) = true)
    (hslash : startsWithSlash text = true)
    (hcmd : commands (commandOf text) = some handler)
    (hthrow : (handler chatId (argsOf text)).thrown = some m) :
    handleCommand commands authVar chatId userId text =
      (handler chatId (argsOf text)).effects ++
        [Effect.sendMessageE chatId (commandFailedMsg m)] := by
  have h1 : ¬ ((parseAuthorizedIds authVar).length = 0) :=
    fun hl => hne (List.length_eq_zero.mp hl)
  simp only [handleCommand, hmem, hslash, Bool.not_true, if_neg h1]
  simp only [Bool.false_eq_true, if_false, hcmd]
  rw [hthrow]

/-- Witness for C3: a registry whose only handler throws `"boom"`. -/
theorem dispatcher_catches_handler_throw_witness :
    handleCommand (fun _ => some (fun _ _ => ⟨[], some "boom"⟩)) (some "7") 1 7 "/x" =
      [Effect.sendMessageE 1 (commandFailedMsg "boom")] :=
  dispatcher_catches_handler_throw (fun _ => some (fun _ _ => ⟨[], some "boom"⟩))
    (some "7") 1 7 "/x" (fun _ _ => ⟨[], some "boom"⟩) "boom"
    (by decide) (by decide) rfl rfl rfl

/-- C4 (counterexample): the claim says `validateProjectName` returns
`false` for every string containing an uppercase letter, but the regex
carries the `i` flag, and the single uppercase letter `"A"` is
accepted. -/
theorem validateProjectName_accepts_uppercase : validateProjectName "A" = true := by
  decide

/-- C4 (amended): `validateProjectName` returns `false` for every string
containing an underscore or a space and for every string longer than 100
characters, returns `true` on `"simmer-down"`, `"a"` and
`"project-123"`, and — because the pattern is case-insensitive — also
accepts strings with uppercase letters such as `"A"`. -/
theorem validateProjectName_rules :
    (∀ s : String, '_' ∈ s.data → validateProjectName s = false) ∧
    (∀ s : String, ' ' ∈ s.data → validateProjectName s = false) ∧
    (∀ s : String, 100 < s.length → validateProjectName s = false) ∧
    validateProjectName "simmer-down" = true ∧
    validateProjectName "a" = true ∧
    validateProjectName "project-123" = true ∧
    validateProjectName "A" = true :=
  ⟨fun s hc => validateProjectName_bad_char s '_' hc (by decide),
    fun s hc => validateProjectName_bad_char s ' ' hc (by decide),
    fun s h => validateProjectName_too_long s h,
    by decide, by decide, by decide, by decide⟩

/-- Witness for C4 at concrete rejected inputs. -/
theorem validateProjectName_rules_witness :
    validateProjectName "a_b" = false ∧ validateProjectName "a b" = false ∧
      validateProjectName (String.mk (List.replicate 101 'a')) = false :=
  ⟨validateProjectName_rules.1 "a_b" (by decide),
    validateProjectName_rules.2.1 "a b" (by decide),
    validateProjectName_rules.2.2.1 (String.mk (List.replicate 101 'a')) (by decide)⟩

/-- C5: on the deployment-platform URL the lazy capture group stops at
the first hyphen (the rest of the host is absorbed by the second optional
group), so the code returns `"simmer"` where its own doc comment and the
claim say `"simmer-down"`; the GitHub-URL and bare-token parts of the
claim hold. -/
theorem extractProjectName_spec_examples :
    extractProjectName "https://simmer-down-ab12cd34-team.vercel.app" = "simmer" ∧
    extractProjectName "https://github.com/Owner/my-repo.git" = "my-repo" ∧
    extractProjectName "my-repo" = "my-repo" :=
  ⟨by decide, by decide, by decide⟩

/-- C7 (counterexample): the two denial conditions produce different
user-visible messages, so the reply does reveal whether the allow-list
was empty or the caller merely absent. -/
theorem handleCommand_denial_message_leaks :
    handleCommand (fun _ => none) none 1 2 "/help" =
      [Effect.sendMessageE 1 notConfiguredMsg] ∧
    handleCommand (fun _ => none) (some "5") 1 2 "/help" =
      [Effect.sendMessageE 1 unauthorizedMsg] ∧
    notConfiguredMsg ≠ unauthorizedMsg :=
  ⟨by decide, by decide, by decide⟩

/-- C7 (amended): every denied caller receives exactly one denial
message and no handler runs, but the message is `notConfiguredMsg` when
the allow-list is empty and `unauthorizedMsg` when the caller is absent
from a nonempty allow-list, and the two texts differ. -/
theorem handleCommand_denial_distinguishes (commands : Registry)
    (authVar : Option String) (chatId userId : Int) (text : String) :
    (parseAuthorizedIds authVar = [] →
      handleCommand commands authVar chatId userId text =
        [Effect.sendMessageE chatId notConfiguredMsg]) ∧
    (parseAuthorizedIds authVar ≠ [] →
      jsIncludes (parseAuthorizedIds authVar) (jsOfInt userId) = false →
      handleCommand commands authVar chatId userId text =
        [Effect.sendMessageE chatId unauthorizedMsg]) ∧
    notConfiguredMsg ≠ unauthorizedMsg :=
  ⟨fun h => handleCommand_denied_empty commands authVar chatId userId text h,
    fun hne hmem => handleCommand_denied_absent commands authVar chatId userId text hne hmem,
    by decide⟩

/-- Witness for C7's amended statement at concrete inputs. -/
theorem handleCommand_denial_distinguishes_witness :
    handleCommand (fun _ => none) none 3 4 "/a" = [Effect.sendMessageE 3 notConfiguredMsg] ∧
    handleCommand (fun _ => none) (some "9") 3 4 "/a" =
      [Effect.sendMessageE 3 unauthorizedMsg] :=
  ⟨(handleCommand_denial_distinguishes (fun _ => none) none 3 4 "/a").1 rfl,
    (handleCommand_denial_distinguishes (fun _ => none) (some "9") 3 4 "/a").2.1
      (by decide) (by decide)⟩

/-- C8 (counterexample): with a secret configured and no secret header
supplied, the webhook still processes the update — `handleCommand` is
invoked rather than the request being rejected. -/
theorem webhook_processes_despite_secret :
    webhookPOST (some "s3cret")
        ⟨none, some ⟨1, some ⟨10, ⟨7, false, "Ana", none⟩, ⟨5, "private"⟩, 0, some "/help"⟩⟩⟩ =
      (true, [(5, 7, "/help")]) := by decide

/-- C8 (amended): the webhook performs no shared-secret check at all —
its behavior is independent of any configured secret and of any supplied
header, and every parseable update carrying a nonempty text message
reaches `handleCommand`. -/
theorem webhookPOST_ignores_secret (s1 s2 h1 h2 : Option String)
    (b : Option TelegramUpdate) (u : TelegramUpdate) (msg : TelegramMessage)
    (t : String) (hm : u.message = some msg) (ht : msg.text = some t)
    (hne : t ≠ "") :
    webhookPOST s1 ⟨h1, b⟩ = webhookPOST s2 ⟨h2, b⟩ ∧
    webhookPOST s1 ⟨h1, some u⟩ = (true, [(msg.chat.id, msg.fromUser.id, t)]) := by
  refine ⟨rfl, ?_⟩
  show (match u.message with
    | none => (true, [])
    | some msg =>
      match msg.text with
      | none => (true, [])
      | some t =>
        if t = "" then (true, []) else (true, [(msg.chat.id, msg.fromUser.id, t)])) =
    (true, [(msg.chat.id, msg.fromUser.id, t)])
  rw [hm]
  simp only []
  rw [ht]
  simp only []
  rw [if_neg hne]

/-- Witness for C8's amended statement at a concrete update. -/
theorem webhookPOST_ignores_secret_witness :
    webhookPOST (some "a") ⟨some "x", some ⟨1, some ⟨10, ⟨7, false, "Ana", none⟩, ⟨5, "private"⟩, 0, some "/help"⟩⟩⟩ =
      webhookPOST none ⟨none, some ⟨1, some ⟨10, ⟨7, false, "Ana", none⟩, ⟨5, "private"⟩, 0, some "/help"⟩⟩⟩ ∧
    webhookPOST (some "a") ⟨some "x", some ⟨1, some ⟨10, ⟨7, false, "Ana", none⟩, ⟨5, "private"⟩, 0, some "/help"⟩⟩⟩ =
      (true, [(5, 7, "/help")]) :=
  webhookPOST_ignores_secret (some "a") none (some "x") none
    (some ⟨1, some ⟨10, ⟨7, false, "Ana", none⟩, ⟨5, "private"⟩, 0, some "/help"⟩⟩)
    ⟨1, some ⟨10, ⟨7, false, "Ana", none⟩, ⟨5, "private"⟩, 0, some "/help"⟩⟩
    ⟨10, ⟨7, false, "Ana", none⟩, ⟨5, "private"⟩, 0, some "/help"⟩
    "/help" rfl rfl (by decide)

/-- C9: the allow-list is built by splitting on commas, converting with
`Number` and discarding falsy results; hence the number `0` is never a
member of the parsed list (caller 0 is always denied with one of the two
denial messages), and a configuration whose entries all parse to `NaN`
parses to the empty list and behaves exactly like an unset variable,
denying every caller with the not-configured message. -/
theorem allowlist_zero_and_nan_entries (commands : Registry)
    (authVar : Option String) (chatId userId : Int) (text : String) (s : String)
    (hnan : ∀ e ∈ splitOnComma s.data, jsNumber e = JsNum.nan) :
    jsIncludes (parseAuthorizedIds authVar) (jsOfInt 0) = false ∧
    (∃ m, (m = notConfiguredMsg ∨ m = unauthorizedMsg) ∧
      handleCommand commands authVar chatId 0 text = [Effect.sendMessageE chatId m]) ∧
    parseAuthorizedIds (some s) = [] ∧
    handleCommand commands (some s) chatId userId text =
      handleCommand commands none chatId userId text ∧
    handleCommand commands (some s) chatId userId text =
      [Effect.sendMessageE chatId notConfiguredMsg] := by
  have hzero := parseAuthorizedIds_never_zero authVar
  have hparsed := parseAuthorizedIds_all_nan s hnan
  refine ⟨hzero, ?_, hparsed, ?_, ?_⟩
  · by_cases he : parseAuthorizedIds authVar = []
    · exact ⟨notConfiguredMsg, Or.inl rfl,
        handleCommand_denied_empty commands authVar chatId 0 text he⟩
    · exact ⟨unauthorizedMsg, Or.inr rfl,
        handleCommand_denied_absent commands authVar chatId 0 text he hzero⟩
  · rw [handleCommand_denied_empty commands (some s) chatId userId text hparsed,
      handleCommand_denied_empty commands none chatId userId text rfl]
  · exact handleCommand_denied_empty commands (some s) chatId userId text hparsed

/-- Witness for C9: allow-list `"0"` (the id 0 is discarded as falsy)
and the all-NaN configuration `"abc,def"`. -/
theorem allowlist_zero_and_nan_entries_witness :
    jsIncludes (parseAuthorizedIds (some "0")) (jsOfInt 0) = false ∧
    (∃ m, (m = notConfiguredMsg ∨ m = unauthorizedMsg) ∧
      handleCommand (fun _ => none) (some "0") 1 0 "/help" = [Effect.sendMessageE 1 m]) ∧
    parseAuthorizedIds (some "abc,def") = [] ∧
    handleCommand (fun _ => none) (some "abc,def") 1 5 "/help" =
      handleCommand (fun _ => none) none 1 5 "/help" ∧
    handleCommand (fun _ => none) (some "abc,def") 1 5 "/help" =
      [Effect.sendMessageE 1 notConfiguredMsg] :=
  allowlist_zero_and_nan_entries (fun _ => none) (some "0") 1 5 "/help" "abc,def"
    (by decide)

/-- C10: with `TELEGRAM_BOT_TOKEN` unset, `sendMessage` throws
`"TELEGRAM_BOT_TOKEN not set"` with an empty fetch trace (it fails
loudly before any network call), while `sendTyping` returns normally
with an empty fetch trace (it fails silently). -/
theorem telegram_missing_token_behavior (fetchOk : Bool) (chatId : Int)
    (text : String) (parseMode : Option String) :
    sendMessage fetchOk none chatId text parseMode =
      ([], Except.error "TELEGRAM_BOT_TOKEN not set") ∧
    sendTyping none chatId = ([], Except.ok ()) :=
  ⟨rfl, rfl⟩

end MachineMind
